import Mathlib

/-!
Shallow embedding of press/press/doctype/deploy_candidate/docker_output_parsers.py.

Python strings are modelled over lists of characters; strip and split use the
ASCII whitespace class, and int and float parsing cover the decimal grammar of
CPython (sign, digits with single underscores between digits, fraction, decimal
exponent); the special float spellings inf and nan and non-ASCII digits never
occur in docker output and are omitted.  Python machine floats are modelled as
the exact rational value of the decimal literal.  Python exceptions are modelled
by an error component returned next to the state, so attribute writes performed
before a raise are kept, exactly as in CPython.  Wall-clock reads of
now_datetime are modelled by rational timestamps supplied with the input.
-/

namespace DockerParse

/-- Python exception kinds that the embedded code can raise. -/
inductive PErr
  | indexError
  | valueError
  | typeError
  | attributeError
  | externalError
deriving DecidableEq

/-- Python value used as a step index key: an int, or a tuple built by the
trailing comma in the fallback branch of _get_step_index_split (a 1-tuple whose
element may itself be such a value). -/
inductive PyIdx
  | int : Int → PyIdx
  | tup : PyIdx → PyIdx
deriving DecidableEq

/-- Python ASCII whitespace class used by str.strip and str.split. -/
def isPyWs (c : Char) : Bool :=
  c = ' ' || c = '\t' || c = '\n' || c = '\x0d' || c = '\x0b' || c = '\x0c'

/-- Strip leading and trailing whitespace from a character list. -/
def stripList (l : List Char) : List Char :=
  ((l.dropWhile isPyWs).reverse.dropWhile isPyWs).reverse

/-- Python str.strip with no arguments. -/
def pyStrip (s : String) : String :=
  ⟨stripList s.data⟩

/-- Helper for whitespace split: accumulates the current token (reversed). -/
def splitWsAux : List Char → List Char → List (List Char)
  | [], acc => if acc = [] then [] else [acc.reverse]
  | c :: rest, acc =>
    if isPyWs c then
      if acc = [] then splitWsAux rest [] else acc.reverse :: splitWsAux rest []
    else splitWsAux rest (c :: acc)

/-- Python str.split with no arguments: split on whitespace runs, no empties. -/
def pySplit (s : String) : List String :=
  (splitWsAux s.data []).map (fun l => ⟨l⟩)

/-- Python str.split with maxsplit equal to 1 and no separator: at most two
parts; leading whitespace and the run after the first token are consumed, the
remainder is kept verbatim. -/
def pySplitMax1 (s : String) : List String :=
  let l := s.data.dropWhile isPyWs
  let tok := l.takeWhile (fun c => !(isPyWs c))
  let rest := (l.dropWhile (fun c => !(isPyWs c))).dropWhile isPyWs
  if tok = [] then []
  else if rest = [] then [⟨tok⟩] else [⟨tok⟩, ⟨rest⟩]

/-- Decimal digit value of a character, if it is an ASCII digit. -/
def chDigit (c : Char) : Option Nat :=
  if '0' ≤ c ∧ c ≤ '9' then some (c.toNat - 48) else none

/-- Continue a digit group: digits with single underscores between digits.
Returns the accumulated value and the digit count. -/
def digitsValCnt : List Char → Nat → Nat → Option (Nat × Nat)
  | [], acc, cnt => some (acc, cnt)
  | '_' :: c :: rest, acc, cnt =>
    match chDigit c with
    | some d => digitsValCnt rest (acc * 10 + d) (cnt + 1)
    | none => none
  | ['_'], _, _ => none
  | c :: rest, acc, cnt =>
    match chDigit c with
    | some d => digitsValCnt rest (acc * 10 + d) (cnt + 1)
    | none => none

/-- Parse a nonempty digit group that must start with a digit. -/
def digitGroup (l : List Char) : Option (Nat × Nat) :=
  match l with
  | c :: rest =>
    match chDigit c with
    | some d => digitsValCnt rest d 1
    | none => none
  | [] => none

/-- Parse an optional sign followed by a digit group, as an integer. -/
def parseSignedDigits (l : List Char) : Option Int :=
  match l with
  | '+' :: r => (digitGroup r).map (fun p => (p.1 : Int))
  | '-' :: r => (digitGroup r).map (fun p => -(p.1 : Int))
  | _ => (digitGroup l).map (fun p => (p.1 : Int))

/-- Python int applied to a string: surrounding whitespace allowed, optional
sign, decimal digits with single underscores between digits; None models a
ValueError raise. -/
def pyInt (s : String) : Option Int :=
  parseSignedDigits (stripList s.data)

/-- Break a character list at the first character satisfying p; the separator
character is dropped. -/
def breakAtCh (p : Char → Bool) : List Char → Option (List Char × List Char)
  | [] => none
  | c :: r =>
    if p c then some ([], r)
    else (breakAtCh p r).map (fun q => (c :: q.1, q.2))

/-- Ten to a natural power, as a rational. -/
def pow10 (n : Nat) : Rat :=
  (10 : Rat) ^ n

/-- Scale a rational by a signed decimal exponent. -/
def applyExp (q : Rat) (ex : Int) : Rat :=
  if 0 ≤ ex then q * pow10 ex.toNat else q / pow10 (-ex).toNat

/-- Parse an unsigned float literal: mantissa with optional fraction dot and
optional decimal exponent. -/
def pyFloatParts (l : List Char) : Option Rat :=
  let br := breakAtCh (fun c => c = 'e' || c = 'E') l
  let mant := match br with | none => l | some q => q.1
  let expVal : Option Int :=
    match br with
    | none => some 0
    | some q => parseSignedDigits q.2
  match expVal with
  | none => none
  | some ex =>
    match breakAtCh (fun c => c = '.') mant with
    | none =>
      match digitGroup mant with
      | some p => some (applyExp (p.1 : Rat) ex)
      | none => none
    | some q =>
      match q.1, q.2 with
      | [], [] => none
      | [], fp =>
        (digitGroup fp).map (fun f => applyExp ((f.1 : Rat) / pow10 f.2) ex)
      | ip, [] =>
        (digitGroup ip).map (fun i => applyExp (i.1 : Rat) ex)
      | ip, fp =>
        match digitGroup ip, digitGroup fp with
        | some i, some f =>
          some (applyExp ((i.1 : Rat) + (f.1 : Rat) / pow10 f.2) ex)
        | _, _ => none

/-- Python float applied to a string, as the exact rational of the decimal
literal; None models a ValueError raise. -/
def pyFloat (s : String) : Option Rat :=
  match stripList s.data with
  | '+' :: r => pyFloatParts r
  | '-' :: r => (pyFloatParts r).map (fun q => -q)
  | l => pyFloatParts l

/-- Python slicing s[n:]: drop the first n characters. -/
def pyDrop (s : String) (n : Nat) : String :=
  ⟨s.data.drop n⟩

/-- Python slicing s[:-1]: drop the last character, empty stays empty. -/
def pyDropRight1 (s : String) : String :=
  ⟨s.data.dropLast⟩

/-- Python str.startswith for a plain string argument. -/
def pyStartsWith (s pre : String) : Bool :=
  pre.data.isPrefixOf s.data

/-- Python str.endswith for a plain string argument. -/
def strEndsWith (s suf : String) : Bool :=
  suf.data.isSuffixOf s.data

/-- Replace every occurrence of pat by rep, scanning left to right without
overlap, as Python str.replace; fuel is at least the input length plus one. -/
def replaceFuel (pat rep : List Char) : Nat → List Char → List Char
  | 0, l => l
  | _ + 1, [] => if pat = [] then rep else []
  | fuel + 1, c :: rest =>
    if pat = [] then rep ++ c :: replaceFuel pat rep fuel rest
    else if pat.isPrefixOf (c :: rest) then
      rep ++ replaceFuel pat rep fuel ((c :: rest).drop pat.length)
    else c :: replaceFuel pat rep fuel rest

/-- Python str.replace with all occurrences replaced. -/
def pyReplace (s pat rep : String) : String :=
  ⟨replaceFuel pat.data rep.data (s.data.length + 1) s.data⟩

/-- Break a character list at the first occurrence of a nonempty pattern,
dropping the pattern itself. -/
def breakAtSub (pat : List Char) : List Char → Option (List Char × List Char)
  | [] => if pat = [] then some ([], []) else none
  | c :: rest =>
    if pat.isPrefixOf (c :: rest) then some ([], (c :: rest).drop pat.length)
    else (breakAtSub pat rest).map (fun q => (c :: q.1, q.2))

/-- Python str.split on a literal separator with maxsplit equal to 1. -/
def splitSepMax1 (s sep : String) : List String :=
  match breakAtSub sep.data s.data with
  | none => [s]
  | some q => [⟨q.1⟩, ⟨q.2⟩]

/-- Split on a literal separator, all occurrences; fuel at least length plus
one. -/
def splitSepAllFuel (pat : List Char) : Nat → List Char → List (List Char)
  | 0, l => [l]
  | fuel + 1, l =>
    match breakAtSub pat l with
    | none => [l]
    | some q => q.1 :: splitSepAllFuel pat fuel q.2

/-- Python str.split on a literal separator with no maxsplit. -/
def pySplitSep (s sep : String) : List String :=
  (splitSepAllFuel sep.data (s.data.length + 1) s.data).map (fun l => ⟨l⟩)

/-- Python str.partition: the part after the first occurrence of the
separator, or the empty string when the separator is absent. -/
def pyPartitionAfter (s sep : String) : String :=
  match breakAtSub sep.data s.data with
  | none => ""
  | some q => ⟨q.2⟩

/-- Remainder after one ANSI escape sequence when the ansi_escape_rx regex
matches right after the ESC character: either one byte in the ranges 0x40-0x5A
or 0x5C-0x5F, or an opening square bracket followed by bytes in 0x30-0x3F, then
bytes in 0x20-0x2F, then one final byte in 0x40-0x7E. -/
def ansiSeqTail (l : List Char) : Option (List Char) :=
  match l with
  | [] => none
  | d :: rest =>
    if (0x40 ≤ d.toNat ∧ d.toNat ≤ 0x5A) ∨ (0x5C ≤ d.toNat ∧ d.toNat ≤ 0x5F) then
      some rest
    else if d = '[' then
      let r1 := rest.dropWhile (fun c => 0x30 ≤ c.toNat && c.toNat ≤ 0x3F)
      let r2 := r1.dropWhile (fun c => 0x20 ≤ c.toNat && c.toNat ≤ 0x2F)
      match r2 with
      | f :: r3 => if 0x40 ≤ f.toNat ∧ f.toNat ≤ 0x7E then some r3 else none
      | [] => none
    else none

/-- Substitute every match of the ANSI escape regex by the empty string; each
step consumes at least one character, so fuel equal to the length suffices. -/
def ansiEscapeFuel : Nat → List Char → List Char
  | 0, l => l
  | _ + 1, [] => []
  | fuel + 1, c :: rest =>
    if c = '\x1b' then
      match ansiSeqTail rest with
      | some r => ansiEscapeFuel fuel r
      | none => c :: ansiEscapeFuel fuel rest
    else c :: ansiEscapeFuel fuel rest

/-- The module level ansi_escape helper: strips ANSI escape sequences. -/
def ansiEscape (s : String) : String :=
  ⟨ansiEscapeFuel s.data.length s.data⟩

/-- Join a list of strings with no separator, as an empty-string join. -/
def strJoin (l : List String) : String :=
  l.foldl (fun a b => a ++ b) ""

/-- Python strict comparison of index values: ints compare by value, 1-tuples
compare elementwise, an int against a tuple raises a TypeError (None). -/
def pyLt : PyIdx → PyIdx → Option Bool
  | .int a, .int b => some (decide (a < b))
  | .tup a, .tup b => pyLt a b
  | _, _ => none

/-- Maximum key helper: compare the running maximum against each later key. -/
def pyMaxKeyAux : PyIdx → List PyIdx → Except PErr PyIdx
  | m, [] => .ok m
  | m, k :: rest =>
    match pyLt m k with
    | none => .error .typeError
    | some true => pyMaxKeyAux k rest
    | some false => pyMaxKeyAux m rest

/-- Model of sorted(keys)[-1]: IndexError on an empty dict, TypeError when the
keys mix ints and tuples (CPython sorting compares such a pair), otherwise the
maximum key. -/
def pyMaxKey : List PyIdx → Except PErr PyIdx
  | [] => .error .indexError
  | k :: rest => pyMaxKeyAux k rest

/-- Decidable equality of Except values with decidable components. -/
instance {ε α : Type} [DecidableEq ε] [DecidableEq α] :
    DecidableEq (Except ε α) := fun a b =>
  match a, b with
  | .ok x, .ok y =>
    if h : x = y then .isTrue (by rw [h]) else .isFalse (fun hc => h (Except.ok.inj hc))
  | .error x, .error y =>
    if h : x = y then .isTrue (by rw [h])
    else .isFalse (fun hc => h (Except.error.inj hc))
  | .ok _, .error _ => .isFalse (fun hc => Except.noConfusion hc)
  | .error _, .ok _ => .isFalse (fun hc => Except.noConfusion hc)

/-- Python dict lookup on an association list kept with unique keys. -/
def dictGet {α β : Type} [DecidableEq α] : List (α × β) → α → Option β
  | [], _ => none
  | (k2, v) :: rest, k => if k = k2 then some v else dictGet rest k

/-- Python dict insertion: replace in place when the key is present, else
append, preserving insertion order. -/
def dictInsert {α β : Type} [DecidableEq α] (d : List (α × β)) (k : α) (v : β) :
    List (α × β) :=
  if d.any (fun p => p.1 = k) then
    d.map (fun p => if p.1 = k then (k, v) else p)
  else d ++ [(k, v)]

/-- Status of a DeployCandidateBuildStep; the source stores the strings
Pending, Running, Success and Failure. -/
inductive Status
  | Pending
  | Running
  | Success
  | Failure
deriving DecidableEq

/-- DeployCandidateBuildStep record: the fields the parser reads and writes.
step_index is unset before the step is observed in a stream; hash and duration
are unset until reported. -/
structure BuildStep where
  step_slug : String
  step_index : Option PyIdx
  command : String
  status : Status
  output : String
  cached : Bool
  hash : Option String
  duration : Option Rat
deriving DecidableEq

/-- Classification record built by _get_step_index_split; its TypedDict
declares index as int, but the fallback branch in fact stores a 1-tuple. -/
structure IndexSplit where
  index : PyIdx
  line : String
  is_unusual : Bool
deriving DecidableEq

/-- Snapshot persisted by a successful dc.save plus commit. -/
structure Durable where
  build_output : String
  build_steps : List BuildStep
  last_updated : Option Rat
  docker_image_id : Option String
deriving DecidableEq

/-- External collaborators of the parser: the flags field returned by
dockerfile.parse_string(name)[0] (error models a raise inside the library or an
empty parse result), and the outcome of the end-of-stream dc.save plus commit
(some e models a persistence failure). -/
structure Config where
  flagsOf : String → Except PErr (List String)
  persist : Option PErr

/-- DeployCandidate fields the parser touches. -/
structure DeployCandidate where
  build_steps : List BuildStep
  is_docker_remote_builder_used : Bool
  build_output : String
  last_updated : Option Rat
  docker_image_id : Option String
deriving DecidableEq

/-- Full state of one DockerBuildOutputParser invocation.  The build step
records of the deploy candidate are the object store build_steps; the three
dicts hold positions into it, mirroring the shared object references of the
Python code.  parser_build_output is the stray build_output attribute that
_update_dc_build_output sets on the parser object itself. -/
structure ParserState where
  build_steps : List BuildStep
  is_remote : Bool
  last_updated : Rat
  lines : List String
  steps : List (PyIdx × Nat)
  dc_steps_by_index : List (Option PyIdx × Nat)
  dc_steps_by_step_slug : List (String × Nat)
  parser_build_output : Option String
  dc_build_output : String
  dc_last_updated : Option Rat
  docker_image_id : Option String
  durable : Option Durable
deriving DecidableEq

/-- Replace the build step at one position of the object store, mirroring
attribute assignment through a shared reference. -/
def modifyAt : List BuildStep → Nat → (BuildStep → BuildStep) → List BuildStep
  | [], _, _ => []
  | st :: rest, 0, f => f st :: rest
  | st :: rest, n + 1, f => st :: modifyAt rest n f

/-- State update writing fields of one referenced build step. -/
def setStep (s : ParserState) (p : Nat) (f : BuildStep → BuildStep) : ParserState :=
  { s with build_steps := modifyAt s.build_steps p f }

/-- The dict comprehension over bs.step_index built in the constructor. -/
def buildIndexMap (steps : List BuildStep) : List (Option PyIdx × Nat) :=
  steps.enum.foldl (fun d p => dictInsert d p.2.step_index p.1) []

/-- The dict comprehension over bs.step_slug built in the constructor. -/
def buildSlugMap (steps : List BuildStep) : List (String × Nat) :=
  steps.enum.foldl (fun d p => dictInsert d p.2.step_slug p.1) []

/-- DockerBuildOutputParser.__init__: empty lines and steps, convenience maps
from the current build step records, last_updated set to the construction
time. -/
def initState (dc : DeployCandidate) (t0 : Rat) : ParserState :=
  { build_steps := dc.build_steps
    is_remote := dc.is_docker_remote_builder_used
    last_updated := t0
    lines := []
    steps := []
    dc_steps_by_index := buildIndexMap dc.build_steps
    dc_steps_by_step_slug := buildSlugMap dc.build_steps
    parser_build_output := none
    dc_build_output := dc.build_output
    dc_last_updated := dc.last_updated
    docker_image_id := dc.docker_image_id
    durable := none }

/-- Source search of the pattern matching a backtick, a hash sign, the letters
stage and a hyphen, then a greedy run of non-newline characters, then a
backtick; at position i of the character list this matches when the literal
prefix is present and a closing backtick occurs in the non-newline span after
it, the greedy group ending at the last such backtick. -/
def stageMatchAt (l : List Char) (i : Nat) : Option (List Char × List Char) :=
  let pat := ['\x60', '#', 's', 't', 'a', 'g', 'e', '-']
  if pat.isPrefixOf (l.drop i) then
    let span := (l.drop (i + 8)).takeWhile (fun c => c ≠ '\n')
    let ticks := (List.range span.length).filter
      (fun j => span.get? j = some ('\x60'))
    match ticks.getLast? with
    | some k => some (pat ++ span.take k ++ ['\x60'], span.take k)
    | none => none
  else none

/-- Model of re.search over the slug marker pattern: the leftmost starting
position wins, the greedy group runs to the last closing backtick; returns the
whole match and the captured group. -/
def reSearchStage (name : String) : Option (String × String) :=
  ((List.range name.data.length).findSome? (fun i => stageMatchAt name.data i)).map
    (fun q => (⟨q.1⟩, ⟨q.2⟩))

/-- The get_name_and_slugs helper: strip the first dockerfile flag if any,
remove the matched slug marker, strip, rewrite triple spaces into a
continuation, drop the four leading characters, and split the captured group at
the first hyphen into the stage and step slugs (ValueError when there is no
hyphen, from unpacking a single part into two names). -/
def getNameAndSlugs (cfg : Config) (name g0 g1 : String) :
    Except PErr (String × String × String) :=
  match cfg.flagsOf name with
  | .error e => .error e
  | .ok flags =>
    let n1 := match flags with
      | [] => name
      | f :: _ => pyReplace name f ("")
    let n2 := pyReplace n1 g0 ("")
    let n3 := pyStrip n2
    let n4 := pyDrop (pyReplace n3 ("   ") (" \\\n  ")) 4
    match splitSepMax1 g1 ("-") with
    | [st, sl] => .ok (n4, st, sl)
    | _ => .error .valueError

/-- The _get_step_index_split classifier.  The fallback branch mirrors the
source line index = (sorted(self.steps)[-1],): note the trailing comma, so the
stored index is a 1-tuple of the numerically largest registered key; an empty
steps dict raises IndexError, mixed key kinds raise TypeError. -/
def getStepIndexSplit (escaped : String) (s : ParserState) :
    Except PErr IndexSplit :=
  match pySplitMax1 escaped with
  | [a, b] =>
    match pyInt (pyDrop a 1) with
    | some n => .ok ⟨.int n, b, false⟩
    | none =>
      match pyMaxKey (s.steps.map (fun kv => kv.1)) with
      | .error e => .error e
      | .ok m => .ok ⟨.tup m, escaped, true⟩
  | _ =>
    match pyMaxKey (s.steps.map (fun kv => kv.1)) with
    | .error e => .error e
    | .ok m => .ok ⟨.tup m, escaped, true⟩

/-- The _set_docker_image_id helper: third whitespace token of the line, part
after the first colon; missing tokens raise IndexError. -/
def setDockerImageId (line : String) (s : ParserState) :
    ParserState × Option PErr :=
  match (pySplit line).get? 2 with
  | none => (s, some .indexError)
  | some tok =>
    match (pySplitSep tok (":")).get? 1 with
    | none => (s, some .indexError)
    | some h => ({ s with docker_image_id := some h }, none)

/-- The _update_dc_build_step transition.  The target is resolved through
dc_steps_by_index, the map built in the constructor from the pre-parse
step_index values (not through self.steps).  In the DONE branch the status is
assigned before the duration parse, so a ValueError there keeps the status
write, as in CPython. -/
def updateDcBuildStep (split : IndexSplit) (s : ParserState) :
    ParserState × Option PErr :=
  match dictGet s.dc_steps_by_index (some split.index) with
  | none => (s, none)
  | some p =>
    let line := split.line
    if split.is_unusual then
      (setStep s p (fun st => { st with output := st.output ++ line ++ "\n" }), none)
    else if pyStartsWith line ("sha256:") then
      (setStep s p (fun st => { st with hash := some (pyDrop line 7) }), none)
    else if pyStartsWith line ("DONE") then
      let s1 := setStep s p (fun st => { st with status := .Success })
      match (pySplit line).get? 1 with
      | none => (s1, some .indexError)
      | some tok =>
        match pyFloat (pyDropRight1 tok) with
        | none => (s1, some .valueError)
        | some d => (setStep s1 p (fun st => { st with duration := some d }), none)
    else if line = "CACHED" then
      (setStep s p (fun st => { st with status := .Success, cached := true }), none)
    else if pyStartsWith line ("ERROR") then
      (setStep s p (fun st =>
        { st with status := .Failure,
                  output := st.output ++ pyDrop line 7 ++ "\n" }), none)
    else
      (setStep s p (fun st =>
        { st with output := st.output ++ pyPartitionAfter line (" ") ++ "\n" }), none)

/-- The _add_step_to_steps_dict step-start transition: gated on the stage
bracket, the RUN verb, the slug marker and the by-slug registry; a missing
closing bracket raises IndexError from the [1] subscript.  The apps stage
overrides the command with the canonical fetch string.  The started step is
registered in self.steps under the classified index. -/
def addStepToStepsDict (cfg : Config) (split : IndexSplit) (s : ParserState) :
    ParserState × Option PErr :=
  let line := split.line
  if !(pyStartsWith line ("[stage-")) then (s, none)
  else
    match splitSepMax1 line ("]") with
    | [_, after] =>
      let name := pyStrip after
      if !(pyStartsWith name ("RUN")) then (s, none)
      else
        match reSearchStage name with
        | none => (s, none)
        | some q =>
          match getNameAndSlugs cfg name q.1 q.2 with
          | .error e => (s, some e)
          | .ok (name2, stage_slug, step_slug) =>
            match dictGet s.dc_steps_by_step_slug step_slug with
            | none => (s, none)
            | some p =>
              let cmd :=
                if stage_slug = "apps" then ("bench get-app ") ++ step_slug
                else name2
              let s1 := setStep s p (fun st =>
                { st with step_index := some split.index,
                          command := cmd,
                          status := .Running,
                          output := "" })
              ({ s1 with steps := dictInsert s1.steps split.index p }, none)
    | _ => (s, none)

/-- The _parse_line dispatcher: normalize, skip blank lines, append to the
accumulated log, classify, then image-id capture, terminal-state update for a
registered index, or the step-start path. -/
def parseLine (cfg : Config) (raw : String) (s : ParserState) :
    ParserState × Option PErr :=
  let escaped := pyStrip (ansiEscape raw)
  if escaped = "" then (s, none)
  else
    let s2 := { s with lines := s.lines ++ [escaped] }
    match getStepIndexSplit escaped s2 with
    | .error e => (s2, some e)
    | .ok split =>
      if pyStartsWith split.line ("writing image") then
        setDockerImageId split.line s2
      else if s2.steps.any (fun kv => kv.1 = split.index) then
        updateDcBuildStep split s2
      else
        addStepToStepsDict cfg split s2

/-- The _update_dc_build_output throttled flush.  Remote sources return at
once; local sources defer unless strictly more than one second elapsed since
last_updated.  The flush path assigns build_output on the parser object itself
and then calls self.save, an attribute the parser class does not define, so it
raises AttributeError before any store write; the line resetting the clock sets
last_update, a different attribute, and is unreachable anyway. -/
def updateDcBuildOutput (now : Rat) (s : ParserState) :
    ParserState × Option PErr :=
  if s.is_remote then (s, none)
  else if now - s.last_updated ≤ 1 then (s, none)
  else
    ({ s with parser_build_output := some (strJoin s.lines) }, some .attributeError)

/-- The _parse_line_handle_exc wrapper: any exception from the line or from the
throttled flush is caught and printed, the state reached so far is kept. -/
def parseLineHandleExc (cfg : Config) (raw : String) (now : Rat)
    (s : ParserState) : ParserState :=
  match parseLine cfg raw s with
  | (s1, some _) => s1
  | (s1, none) => (updateDcBuildOutput now s1).1

/-- The _end_parsing unconditional persistence: remote sources refresh the
candidate freshness timestamp, the full accumulated log is written onto the
candidate, then dc.save plus commit run; a persistence failure propagates to
the caller and leaves no durable snapshot, while the in-memory fields are
already updated. -/
def endParsing (cfg : Config) (nowEnd : Rat) (s : ParserState) :
    ParserState × Option PErr :=
  let s1 := if s.is_remote then { s with dc_last_updated := some nowEnd } else s
  let s2 := { s1 with dc_build_output := strJoin s1.lines }
  match cfg.persist with
  | some e => (s2, some e)
  | none =>
    ({ s2 with durable := some ⟨s2.dc_build_output, s2.build_steps,
        s2.dc_last_updated, s2.docker_image_id⟩ }, none)

/-- Fold of the per-line handler over the timed input lines. -/
def runLines (cfg : Config) (input : List (String × Rat)) (s0 : ParserState) :
    ParserState :=
  input.foldl (fun s p => parseLineHandleExc cfg p.1 p.2 s) s0

/-- The parse entry point: every line through the exception-isolating handler,
then the unconditional end-of-stream persistence. -/
def parse (cfg : Config) (input : List (String × Rat)) (nowEnd : Rat)
    (s0 : ParserState) : ParserState × Option PErr :=
  endParsing cfg nowEnd (runLines cfg input s0)

/-- One complete parser invocation against a deploy candidate, returning the
candidate state that a subsequent invocation would start from. -/
def runInvocation (cfg : Config) (dc : DeployCandidate) (t0 : Rat)
    (input : List (String × Rat)) (nowEnd : Rat) :
    DeployCandidate × Option PErr :=
  let r := parse cfg input nowEnd (initState dc t0)
  ({ build_steps := r.1.build_steps
     is_docker_remote_builder_used := r.1.is_remote
     build_output := r.1.dc_build_output
     last_updated := r.1.dc_last_updated
     docker_image_id := r.1.docker_image_id }, r.2)

/-- Observer mirroring the gates of addStepToStepsDict up to the slug lookup:
the step_slug a start line resolves, when every gate passes. -/
def extractedSlug (cfg : Config) (line : String) : Option String :=
  if !(pyStartsWith line ("[stage-")) then none
  else
    match splitSepMax1 line ("]") with
    | [_, after] =>
      let name := pyStrip after
      if !(pyStartsWith name ("RUN")) then none
      else
        match reSearchStage name with
        | none => none
        | some q =>
          match getNameAndSlugs cfg name q.1 q.2 with
          | .error _ => none
          | .ok (_, _, sl) => some sl
    | _ => none

/-- Normalized contribution of one raw line to the accumulated log. -/
def normLine (raw : String) : List String :=
  let e := pyStrip (ansiEscape raw)
  if e = "" then [] else [e]

/-- Normalized contributions of a timed input sequence. -/
def normLines (input : List (String × Rat)) : List String :=
  (input.map (fun p => normLine p.1)).flatten

/-- Trivial external configuration: no dockerfile flags, persistence
succeeds. -/
def cfg0 : Config :=
  ⟨fun _ => .ok [], none⟩

/-- A declared build step with slug frappe, not yet observed in any stream. -/
def stepFrappe : BuildStep :=
  ⟨"frappe", none, "", .Pending, "", false, none, none⟩

/-- The frappe step as persisted after being observed at index i. -/
def stepFrappeAt (i : Int) : BuildStep :=
  ⟨"frappe", some (.int i), "", .Pending, "", false, none, none⟩

/-- Remote candidate with one fresh declared step. -/
def dcFresh : DeployCandidate :=
  ⟨[stepFrappe], true, "", none, none⟩

/-- Remote candidate whose declared step carries a persisted step_index. -/
def dcIdx (i : Int) : DeployCandidate :=
  ⟨[stepFrappeAt i], true, "", none, none⟩

/-- Local candidate with one fresh declared step. -/
def dcLocal : DeployCandidate :=
  ⟨[stepFrappe], false, "", none, none⟩

/-- Docker start line announcing the frappe step at the given printed index. -/
def startLine (n : String) : String :=
  "#" ++ n ++ " [stage-apps 1/1] RUN echo hi `#stage-apps-frappe`"

theorem modifyAt_length (l : List BuildStep) (p : Nat) (f : BuildStep → BuildStep) :
    (modifyAt l p f).length = l.length := by
  induction l generalizing p with
  | nil => rfl
  | cons st rest ih =>
    cases p with
    | zero => rfl
    | succ n => simpa [modifyAt] using ih n

theorem get_modifyAt_ne (l : List BuildStep) (p q : Nat) (f : BuildStep → BuildStep)
    (h : q ≠ p) : (modifyAt l p f).get? q = l.get? q := by
  induction l generalizing p q with
  | nil => rfl
  | cons st rest ih =>
    cases p with
    | zero =>
      cases q with
      | zero => exact absurd rfl h
      | succ m => rfl
    | succ n =>
      cases q with
      | zero => rfl
      | succ m => simpa [modifyAt] using ih n m (by omega)

theorem get_modifyAt_self (l : List BuildStep) (p : Nat) (f : BuildStep → BuildStep) :
    (modifyAt l p f).get? p = (l.get? p).map f := by
  induction l generalizing p with
  | nil => rfl
  | cons st rest ih =>
    cases p with
    | zero => rfl
    | succ n => simpa [modifyAt] using ih n

theorem modifyAt_comp (l : List BuildStep) (p : Nat) (f g : BuildStep → BuildStep) :
    modifyAt (modifyAt l p f) p g = modifyAt l p (fun st => g (f st)) := by
  induction l generalizing p with
  | nil => rfl
  | cons st rest ih =>
    cases p with
    | zero => rfl
    | succ n => simpa [modifyAt] using ih n

theorem setStep_comp (s : ParserState) (p : Nat) (f g : BuildStep → BuildStep) :
    setStep (setStep s p f) p g = setStep s p (fun st => g (f st)) := by
  simp [setStep, modifyAt_comp]

theorem updateDcBuildStep_shape (sp : IndexSplit) (s : ParserState) :
    (updateDcBuildStep sp s).1 = s ∨
    ∃ p f, dictGet s.dc_steps_by_index (some sp.index) = some p ∧
      (updateDcBuildStep sp s).1 = setStep s p f := by
  unfold updateDcBuildStep
  split
  · exact Or.inl rfl
  · rename_i p h
    right
    dsimp only
    split
    · exact ⟨p, _, h, rfl⟩
    · split
      · exact ⟨p, _, h, rfl⟩
      · split
        · split
          · exact ⟨p, _, h, rfl⟩
          · split
            · exact ⟨p, _, h, rfl⟩
            · exact ⟨p, _, h, (setStep_comp s p _ _)⟩
        · split
          · exact ⟨p, _, h, rfl⟩
          · split
            · exact ⟨p, _, h, rfl⟩
            · exact ⟨p, _, h, rfl⟩

theorem updateDcBuildStep_frames (sp : IndexSplit) (s : ParserState) :
    (updateDcBuildStep sp s).1.dc_steps_by_index = s.dc_steps_by_index ∧
    (updateDcBuildStep sp s).1.dc_steps_by_step_slug = s.dc_steps_by_step_slug ∧
    (updateDcBuildStep sp s).1.steps = s.steps ∧
    (updateDcBuildStep sp s).1.lines = s.lines ∧
    (updateDcBuildStep sp s).1.build_steps.length = s.build_steps.length := by
  rcases updateDcBuildStep_shape sp s with h | ⟨p, f, _, h⟩ <;>
    simp [h, setStep, modifyAt_length]

theorem updateDcBuildStep_changed (sp : IndexSplit) (s : ParserState) (p : Nat)
    (h : (updateDcBuildStep sp s).1.build_steps.get? p ≠ s.build_steps.get? p) :
    dictGet s.dc_steps_by_index (some sp.index) = some p := by
  rcases updateDcBuildStep_shape sp s with he | ⟨q, f, hq, he⟩
  · rw [he] at h
    exact absurd rfl h
  · by_cases hpq : p = q
    · exact hpq ▸ hq
    · rw [he] at h
      exact absurd (get_modifyAt_ne s.build_steps q p f hpq) h

theorem setStep_get_cases (s : ParserState) (q p : Nat) (f : BuildStep → BuildStep)
    (st st' : BuildStep) (h1 : s.build_steps.get? p = some st)
    (h2 : (setStep s q f).build_steps.get? p = some st') :
    st' = st ∨ st' = f st := by
  by_cases hpq : p = q
  · subst hpq
    right
    have hm : (setStep s p f).build_steps.get? p = (s.build_steps.get? p).map f :=
      get_modifyAt_self s.build_steps p f
    rw [h2, h1] at hm
    exact Option.some.inj hm
  · left
    have hm : (setStep s q f).build_steps.get? p = s.build_steps.get? p :=
      get_modifyAt_ne s.build_steps q p f hpq
    rw [h2, h1] at hm
    exact Option.some.inj hm

theorem updateDcBuildStep_status (sp : IndexSplit) (s : ParserState) (p : Nat)
    (st st' : BuildStep)
    (h2 : (updateDcBuildStep sp s).1.build_steps.get? p = some st')
    (h1 : s.build_steps.get? p = some st) :
    st'.status = st.status ∨ st'.status = .Success ∨ st'.status = .Failure := by
  unfold updateDcBuildStep at h2
  split at h2
  · rw [h1] at h2
    exact Or.inl (congrArg BuildStep.status (Option.some.inj h2).symm)
  · rename_i q hq
    dsimp only at h2
    split at h2
    · rcases setStep_get_cases s q p _ st st' h1 h2 with he | he <;> rw [he]
      · exact Or.inl rfl
      · exact Or.inl rfl
    · split at h2
      · rcases setStep_get_cases s q p _ st st' h1 h2 with he | he <;> rw [he]
        · exact Or.inl rfl
        · exact Or.inl rfl
      · split at h2
        · split at h2
          · rcases setStep_get_cases s q p _ st st' h1 h2 with he | he <;> rw [he]
            · exact Or.inl rfl
            · exact Or.inr (Or.inl rfl)
          · split at h2
            · rcases setStep_get_cases s q p _ st st' h1 h2 with he | he <;> rw [he]
              · exact Or.inl rfl
              · exact Or.inr (Or.inl rfl)
            · rw [setStep_comp] at h2
              rcases setStep_get_cases s q p _ st st' h1 h2 with he | he <;> rw [he]
              · exact Or.inl rfl
              · exact Or.inr (Or.inl rfl)
        · split at h2
          · rcases setStep_get_cases s q p _ st st' h1 h2 with he | he <;> rw [he]
            · exact Or.inl rfl
            · exact Or.inr (Or.inl rfl)
          · split at h2
            · rcases setStep_get_cases s q p _ st st' h1 h2 with he | he <;> rw [he]
              · exact Or.inl rfl
              · exact Or.inr (Or.inr rfl)
            · rcases setStep_get_cases s q p _ st st' h1 h2 with he | he <;> rw [he]
              · exact Or.inl rfl
              · exact Or.inl rfl

theorem addStepToStepsDict_shape (cfg : Config) (sp : IndexSplit) (s : ParserState) :
    (addStepToStepsDict cfg sp s).1 = s ∨
    ∃ p sl f, extractedSlug cfg sp.line = some sl ∧
      dictGet s.dc_steps_by_step_slug sl = some p ∧
      (addStepToStepsDict cfg sp s).1 =
        { setStep s p f with steps := dictInsert s.steps sp.index p } ∧
      (∀ st, (f st).step_slug = st.step_slug ∧ (f st).hash = st.hash ∧
        (f st).cached = st.cached ∧ (f st).duration = st.duration ∧
        (f st).status = .Running) := by
  unfold addStepToStepsDict extractedSlug
  dsimp only
  split
  · exact Or.inl rfl
  · split
    · split
      · exact Or.inl rfl
      · split
        · exact Or.inl rfl
        · split
          · exact Or.inl rfl
          · split
            · exact Or.inl rfl
            · rename_i p hp
              exact Or.inr ⟨p, _, _, rfl, hp, rfl,
                fun st => ⟨rfl, rfl, rfl, rfl, rfl⟩⟩
    · exact Or.inl rfl

theorem addStepToStepsDict_frames (cfg : Config) (sp : IndexSplit) (s : ParserState) :
    (addStepToStepsDict cfg sp s).1.dc_steps_by_index = s.dc_steps_by_index ∧
    (addStepToStepsDict cfg sp s).1.dc_steps_by_step_slug = s.dc_steps_by_step_slug ∧
    (addStepToStepsDict cfg sp s).1.lines = s.lines ∧
    (addStepToStepsDict cfg sp s).1.build_steps.length = s.build_steps.length := by
  rcases addStepToStepsDict_shape cfg sp s with h | ⟨p, sl, f, _, _, h, _⟩ <;>
    simp [h, setStep, modifyAt_length]

theorem addStepToStepsDict_changed (cfg : Config) (sp : IndexSplit) (s : ParserState)
    (p : Nat)
    (h : (addStepToStepsDict cfg sp s).1.build_steps.get? p ≠ s.build_steps.get? p) :
    ∃ sl, dictGet s.dc_steps_by_step_slug sl = some p := by
  rcases addStepToStepsDict_shape cfg sp s with he | ⟨q, sl, f, _, hq, he, _⟩
  · rw [he] at h
    exact absurd rfl h
  · by_cases hpq : p = q
    · exact ⟨sl, hpq ▸ hq⟩
    · rw [he] at h
      exact absurd (get_modifyAt_ne s.build_steps q p f hpq) h

theorem addStepToStepsDict_fields (cfg : Config) (sp : IndexSplit) (s : ParserState)
    (p : Nat) (st st' : BuildStep) (h1 : s.build_steps.get? p = some st)
    (h2 : (addStepToStepsDict cfg sp s).1.build_steps.get? p = some st') :
    st'.step_slug = st.step_slug ∧ st'.hash = st.hash ∧ st'.cached = st.cached ∧
    st'.duration = st.duration := by
  rcases addStepToStepsDict_shape cfg sp s with he | ⟨q, sl, f, _, _, he, hf⟩
  · rw [he, h1] at h2
    rw [(Option.some.inj h2).symm]
    exact ⟨rfl, rfl, rfl, rfl⟩
  · rw [he] at h2
    rcases setStep_get_cases s q p f st st' h1 h2 with hc | hc
    · rw [hc]
      exact ⟨rfl, rfl, rfl, rfl⟩
    · rcases hf st with ⟨a, b, c, d, _⟩
      rw [hc]
      exact ⟨a, b, c, d⟩

theorem setDockerImageId_frames (line : String) (s : ParserState) :
    (setDockerImageId line s).1.build_steps = s.build_steps ∧
    (setDockerImageId line s).1.dc_steps_by_index = s.dc_steps_by_index ∧
    (setDockerImageId line s).1.dc_steps_by_step_slug = s.dc_steps_by_step_slug ∧
    (setDockerImageId line s).1.lines = s.lines ∧
    (setDockerImageId line s).1.steps = s.steps := by
  unfold setDockerImageId
  split
  · exact ⟨rfl, rfl, rfl, rfl, rfl⟩
  · split
    · exact ⟨rfl, rfl, rfl, rfl, rfl⟩
    · exact ⟨rfl, rfl, rfl, rfl, rfl⟩

theorem updateDcBuildOutput_frames (now : Rat) (s : ParserState) :
    (updateDcBuildOutput now s).1.build_steps = s.build_steps ∧
    (updateDcBuildOutput now s).1.dc_steps_by_index = s.dc_steps_by_index ∧
    (updateDcBuildOutput now s).1.dc_steps_by_step_slug = s.dc_steps_by_step_slug ∧
    (updateDcBuildOutput now s).1.lines = s.lines ∧
    (updateDcBuildOutput now s).1.steps = s.steps ∧
    (updateDcBuildOutput now s).1.durable = s.durable := by
  unfold updateDcBuildOutput
  split
  · exact ⟨rfl, rfl, rfl, rfl, rfl, rfl⟩
  · split
    · exact ⟨rfl, rfl, rfl, rfl, rfl, rfl⟩
    · exact ⟨rfl, rfl, rfl, rfl, rfl, rfl⟩

theorem parseLine_frames (cfg : Config) (raw : String) (s : ParserState) :
    (parseLine cfg raw s).1.dc_steps_by_index = s.dc_steps_by_index ∧
    (parseLine cfg raw s).1.dc_steps_by_step_slug = s.dc_steps_by_step_slug ∧
    (parseLine cfg raw s).1.build_steps.length = s.build_steps.length := by
  unfold parseLine
  dsimp only
  split
  · exact ⟨rfl, rfl, rfl⟩
  · split
    · exact ⟨rfl, rfl, rfl⟩
    · split
      · rcases setDockerImageId_frames _ _ with ⟨a, b, c, _, _⟩
        exact ⟨b, c, congrArg List.length a⟩
      · split
        · rcases updateDcBuildStep_frames _ _ with ⟨a, b, _, _, c⟩
          exact ⟨a, b, c⟩
        · rcases addStepToStepsDict_frames _ _ _ with ⟨a, b, _, c⟩
          exact ⟨a, b, c⟩

theorem parseLine_changed (cfg : Config) (raw : String) (s : ParserState) (p : Nat)
    (h : (parseLine cfg raw s).1.build_steps.get? p ≠ s.build_steps.get? p) :
    (∃ sl, dictGet s.dc_steps_by_step_slug sl = some p) ∨
    (∃ k, dictGet s.dc_steps_by_index k = some p) := by
  unfold parseLine at h
  dsimp only at h
  split at h
  · exact absurd rfl h
  · split at h
    · exact absurd rfl h
    · split at h
      · exact absurd (congrArg (fun l => l.get? p) (setDockerImageId_frames _ _).1) h
      · split at h
        · have hc := updateDcBuildStep_changed _ _ p h
          exact Or.inr ⟨_, hc⟩
        · have hc := addStepToStepsDict_changed _ _ _ p h
          exact Or.inl hc

theorem parseLine_lines (cfg : Config) (raw : String) (s : ParserState) :
    (parseLine cfg raw s).1.lines = s.lines ++ normLine raw := by
  unfold parseLine normLine
  dsimp only
  split
  · simp
  · split
    · rfl
    · split
      · exact (setDockerImageId_frames _ _).2.2.2.1
      · split
        · exact (updateDcBuildStep_frames _ _).2.2.2.1
        · exact (addStepToStepsDict_frames _ _ _).2.2.1

theorem handle_bs (cfg : Config) (raw : String) (now : Rat) (s : ParserState) :
    (parseLineHandleExc cfg raw now s).build_steps = (parseLine cfg raw s).1.build_steps := by
  unfold parseLineHandleExc
  rcases hres : parseLine cfg raw s with ⟨s1, e⟩
  cases e with
  | none => exact (updateDcBuildOutput_frames now s1).1
  | some err => rfl

theorem handle_frames (cfg : Config) (raw : String) (now : Rat) (s : ParserState) :
    (parseLineHandleExc cfg raw now s).dc_steps_by_index = s.dc_steps_by_index ∧
    (parseLineHandleExc cfg raw now s).dc_steps_by_step_slug = s.dc_steps_by_step_slug ∧
    (parseLineHandleExc cfg raw now s).build_steps.length = s.build_steps.length := by
  rcases parseLine_frames cfg raw s with ⟨a, b, c⟩
  unfold parseLineHandleExc
  rcases hres : parseLine cfg raw s with ⟨s1, e⟩
  rw [hres] at a b c
  cases e with
  | none =>
    rcases updateDcBuildOutput_frames now s1 with ⟨f1, f2, f3, _, _, _⟩
    exact ⟨f2.trans a, f3.trans b, (congrArg List.length f1).trans c⟩
  | some err => exact ⟨a, b, c⟩

theorem handle_changed (cfg : Config) (raw : String) (now : Rat) (s : ParserState)
    (p : Nat)
    (h : (parseLineHandleExc cfg raw now s).build_steps.get? p ≠ s.build_steps.get? p) :
    (∃ sl, dictGet s.dc_steps_by_step_slug sl = some p) ∨
    (∃ k, dictGet s.dc_steps_by_index k = some p) := by
  rw [handle_bs] at h
  exact parseLine_changed cfg raw s p h

theorem handle_lines (cfg : Config) (raw : String) (now : Rat) (s : ParserState) :
    (parseLineHandleExc cfg raw now s).lines = s.lines ++ normLine raw := by
  have hp := parseLine_lines cfg raw s
  unfold parseLineHandleExc
  rcases hres : parseLine cfg raw s with ⟨s1, e⟩
  rw [hres] at hp
  cases e with
  | none => exact (updateDcBuildOutput_frames now s1).2.2.2.1.trans hp
  | some err => exact hp

theorem runLines_nil (cfg : Config) (s : ParserState) : runLines cfg [] s = s := rfl

theorem runLines_cons (cfg : Config) (q : String × Rat) (rest : List (String × Rat))
    (s : ParserState) :
    runLines cfg (q :: rest) s = runLines cfg rest (parseLineHandleExc cfg q.1 q.2 s) :=
  rfl

theorem runLines_frames (cfg : Config) (input : List (String × Rat)) :
    ∀ s : ParserState,
    (runLines cfg input s).dc_steps_by_index = s.dc_steps_by_index ∧
    (runLines cfg input s).dc_steps_by_step_slug = s.dc_steps_by_step_slug ∧
    (runLines cfg input s).build_steps.length = s.build_steps.length := by
  induction input with
  | nil => exact fun s => ⟨rfl, rfl, rfl⟩
  | cons q rest ih =>
    intro s
    rw [runLines_cons]
    rcases ih (parseLineHandleExc cfg q.1 q.2 s) with ⟨a, b, c⟩
    rcases handle_frames cfg q.1 q.2 s with ⟨a2, b2, c2⟩
    exact ⟨a.trans a2, b.trans b2, c.trans c2⟩

theorem runLines_changed (cfg : Config) (input : List (String × Rat)) :
    ∀ (s : ParserState) (p : Nat),
    (runLines cfg input s).build_steps.get? p ≠ s.build_steps.get? p →
    (∃ sl, dictGet s.dc_steps_by_step_slug sl = some p) ∨
    (∃ k, dictGet s.dc_steps_by_index k = some p) := by
  induction input with
  | nil => exact fun s p h => absurd rfl h
  | cons q rest ih =>
    intro s p h
    rw [runLines_cons] at h
    by_cases hmid : (runLines cfg rest (parseLineHandleExc cfg q.1 q.2 s)).build_steps.get? p
        = (parseLineHandleExc cfg q.1 q.2 s).build_steps.get? p
    · rw [hmid] at h
      exact handle_changed cfg q.1 q.2 s p h
    · rcases ih (parseLineHandleExc cfg q.1 q.2 s) p hmid with ⟨sl, hsl⟩ | ⟨k, hk⟩
      · rw [(handle_frames cfg q.1 q.2 s).2.1] at hsl
        exact Or.inl ⟨sl, hsl⟩
      · rw [(handle_frames cfg q.1 q.2 s).1] at hk
        exact Or.inr ⟨k, hk⟩

theorem runLines_lines (cfg : Config) (input : List (String × Rat)) :
    ∀ s : ParserState, (runLines cfg input s).lines = s.lines ++ normLines input := by
  induction input with
  | nil =>
    intro s
    rw [runLines_nil]
    simp [normLines]
  | cons q rest ih =>
    intro s
    rw [runLines_cons, ih, handle_lines]
    simp [normLines]

theorem endParsing_spec (cfg : Config) (nowEnd : Rat) (s : ParserState) :
    (endParsing cfg nowEnd s).1.build_steps = s.build_steps ∧
    (endParsing cfg nowEnd s).1.lines = s.lines ∧
    (endParsing cfg nowEnd s).1.dc_build_output = strJoin s.lines ∧
    (endParsing cfg nowEnd s).2 = cfg.persist ∧
    (endParsing cfg nowEnd s).1.dc_steps_by_index = s.dc_steps_by_index ∧
    (endParsing cfg nowEnd s).1.dc_steps_by_step_slug = s.dc_steps_by_step_slug := by
  unfold endParsing
  dsimp only
  split <;> split <;> simp_all

unseal Rat.mul Rat.inv Rat.add Rat.sub in
/-- C1: the claimed replay idempotence fails on the code.  Replaying the same
two-line stream (a start line for the frappe step at index 1, then its DONE
line) against a fresh candidate leaves the step Running with no duration, while
the second, identical invocation against the persisted result ends with status
Success and duration 2.4, because _update_dc_build_step resolves the index
through dc_steps_by_index, the map built from pre-parse step_index values,
rather than through self.steps; the second invocation rebuilds that map from
the step_index persisted by the first one. -/
theorem c1_replay_not_idempotent :
    ((runInvocation cfg0 dcFresh 0 [(startLine ("1"), 0), ("#1 DONE 2.4s", 0)]
        0).1.build_steps.head?.map (fun st => st.status) = some .Running) ∧
    ((runInvocation cfg0 dcFresh 0 [(startLine ("1"), 0), ("#1 DONE 2.4s", 0)]
        0).1.build_steps.head?.map (fun st => st.duration) = some none) ∧
    ((runInvocation cfg0
        (runInvocation cfg0 dcFresh 0 [(startLine ("1"), 0), ("#1 DONE 2.4s", 0)] 0).1
        0 [(startLine ("1"), 0), ("#1 DONE 2.4s", 0)] 0).1.build_steps.head?.map
        (fun st => st.status) = some .Success) ∧
    ((runInvocation cfg0
        (runInvocation cfg0 dcFresh 0 [(startLine ("1"), 0), ("#1 DONE 2.4s", 0)] 0).1
        0 [(startLine ("1"), 0), ("#1 DONE 2.4s", 0)] 0).1.build_steps.head?.map
        (fun st => st.duration) = some (some (12 / 5 : Rat))) := by
  decide

/-- C2: the claimed fallback attribution fails on the code.  With the frappe
step registered at index 4 (the active-by-index dict is exactly that one
entry), a line with no parseable index is classified with the 1-tuple made of
index 4 as its index, because of the trailing comma in the source line building
the fallback index; the tuple is not a key of the active dict, so the line
flows to the start path and is dropped: no step output is appended and no step
changes, while the line still enters the accumulated log. -/
theorem c2_fallback_attribution_broken :
    (getStepIndexSplit ("Installing app")
        (runLines cfg0 [(startLine ("4"), 0)] (initState dcFresh 0))).toOption =
      some ⟨.tup (.int 4), "Installing app", true⟩ ∧
    (runLines cfg0 [(startLine ("4"), 0)] (initState dcFresh 0)).steps =
      [(.int 4, 0)] ∧
    (parseLineHandleExc cfg0 ("Installing app") 0
        (runLines cfg0 [(startLine ("4"), 0)] (initState dcFresh 0))).build_steps =
      (runLines cfg0 [(startLine ("4"), 0)] (initState dcFresh 0)).build_steps ∧
    (parseLineHandleExc cfg0 ("Installing app") 0
        (runLines cfg0 [(startLine ("4"), 0)] (initState dcFresh 0))).steps =
      (runLines cfg0 [(startLine ("4"), 0)] (initState dcFresh 0)).steps ∧
    ((runLines cfg0 [(startLine ("4"), 0)] (initState dcFresh 0)).build_steps.head?.map
      (fun st => st.output) = some ("")) := by
  decide

/-- C3: the claimed DONE transition fails on the code for a fresh candidate.
After the start line for index 1 is processed (index 1 is registered in
active-by-index, as the steps dict shows), the line hash-1 DONE 2.4s leaves the
step Running with an unset duration, because _update_dc_build_step looks the
index up in dc_steps_by_index, built from the unset pre-parse step_index
values, and finds nothing. -/
theorem c3_done_transition_not_applied :
    ((runLines cfg0 [(startLine ("1"), 0), ("#1 DONE 2.4s", 0)]
        (initState dcFresh 0)).build_steps.head?.map (fun st => st.status) =
      some .Running) ∧
    ((runLines cfg0 [(startLine ("1"), 0), ("#1 DONE 2.4s", 0)]
        (initState dcFresh 0)).build_steps.head?.map (fun st => st.duration) =
      some none) ∧
    (runLines cfg0 [(startLine ("1"), 0)] (initState dcFresh 0)).steps =
      [(.int 1, 0)] := by
  decide

/-- C4 counterexample: within one invocation, a step does regress from a
terminal status to Running.  Starting from a candidate whose frappe step has
persisted step_index 1, the start line at index 1 and its DONE line leave the
step Success; a second start marker for the same slug arriving under the fresh
index 2 re-fires the start path, which resets the step to Running with empty
output — a terminal to non-terminal transition inside a single parse pass. -/
theorem c4_counterexample_terminal_regression :
    ((runLines cfg0 [(startLine ("1"), 0), ("#1 DONE 2.0s", 0)]
        (initState (dcIdx 1) 0)).build_steps.head?.map (fun st => st.status) =
      some .Success) ∧
    ((runLines cfg0 [(startLine ("1"), 0), ("#1 DONE 2.0s", 0), (startLine ("2"), 0)]
        (initState (dcIdx 1) 0)).build_steps.head?.map (fun st => st.status) =
      some .Running) ∧
    ((runLines cfg0 [(startLine ("1"), 0), ("#1 DONE 2.0s", 0), (startLine ("2"), 0)]
        (initState (dcIdx 1) 0)).build_steps.head?.map (fun st => st.output) =
      some ("")) := by
  decide

/-- C5 counterexample: a failing line can corrupt previously-settled step
state.  With the frappe step resolvable at index 1, the ERROR line settles the
step at status Failure; the later malformed line hash-1 DONE bad assigns status
Success before its duration parse raises ValueError, and the caught exception
leaves that write in place: the settled Failure has become Success. -/
theorem c5_counterexample_settled_state_corrupted :
    ((runLines cfg0 [(startLine ("1"), 0), ("#1 ERROR: boom", 0)]
        (initState (dcIdx 1) 0)).build_steps.head?.map (fun st => st.status) =
      some .Failure) ∧
    ((runLines cfg0 [(startLine ("1"), 0), ("#1 ERROR: boom", 0), ("#1 DONE bad", 0)]
        (initState (dcIdx 1) 0)).build_steps.head?.map (fun st => st.status) =
      some .Success) := by
  decide

unseal Rat.mul Rat.inv Rat.add Rat.sub in
/-- C6: the claimed local per-line flush fails on the code.  For a local
candidate, a line processed two seconds after construction takes the flush
path, which assigns the joined log to the build_output attribute of the parser
object itself and then calls self.save, an attribute the parser class does not
define: the modelled AttributeError is raised and swallowed by the per-line
handler, no durable write or commit happens, and last_updated never advances,
so no later flush can succeed either. -/
theorem c6_local_flush_never_persists :
    ((updateDcBuildOutput 2
        { initState dcLocal 0 with lines := ["#1 hello"] }).2 =
      some .attributeError) ∧
    ((updateDcBuildOutput 2
        { initState dcLocal 0 with lines := ["#1 hello"] }).1.parser_build_output =
      some ("#1 hello")) ∧
    ((updateDcBuildOutput 2
        { initState dcLocal 0 with lines := ["#1 hello"] }).1.durable = none) ∧
    ((parseLineHandleExc cfg0 ("#1 hello") 2 (initState dcLocal 0)).durable = none) ∧
    ((parseLineHandleExc cfg0 ("#1 hello") 2 (initState dcLocal 0)).parser_build_output =
      some ("#1 hello")) ∧
    ((parseLineHandleExc cfg0 ("#1 hello") 2 (initState dcLocal 0)).last_updated = 0) := by
  decide

/-- C7 counterexample: the claimed output suffix is wrong.  For a started step
5 resolvable by index, the line hash-5 ERROR: permission denied does set status
Failure, but stripping the 7-character prefix leaves the text permission
denied, so the output is permission denied plus newline and does not end with
colon-space permission denied plus newline as the claim states. -/
theorem c7_counterexample_error_suffix :
    ((runLines cfg0 [(startLine ("5"), 0), ("#5 ERROR: permission denied", 0)]
        (initState (dcIdx 5) 0)).build_steps.head?.map (fun st => st.status) =
      some .Failure) ∧
    ((runLines cfg0 [(startLine ("5"), 0), ("#5 ERROR: permission denied", 0)]
        (initState (dcIdx 5) 0)).build_steps.head?.map (fun st => st.output) =
      some ("permission denied\n")) ∧
    strEndsWith ("permission denied\n") (": permission denied\n") = false := by
  decide

theorem getStepIndexSplit_lines (e : String) (s : ParserState) (l : List String) :
    getStepIndexSplit e { s with lines := l } = getStepIndexSplit e s := rfl

/-- C5 amended: an exception raised while processing a line is caught, every
later line is still processed — the normalized text of every non-blank line,
the failing ones included, reaches the accumulated log and the final
build_output — and the parse terminates abnormally exactly when the
unconditional end-of-stream persistence fails, that failure being surfaced to
the caller; the failing line may however have already mutated step state before
its exception, as the counterexample shows. -/
theorem c5_amended_line_failure_isolation (cfg : Config)
    (input : List (String × Rat)) (nowEnd : Rat) (s0 : ParserState) :
    (parse cfg input nowEnd s0).1.lines = s0.lines ++ normLines input ∧
    (parse cfg input nowEnd s0).1.dc_build_output =
      strJoin (s0.lines ++ normLines input) ∧
    (parse cfg input nowEnd s0).2 = cfg.persist := by
  have hrl := runLines_lines cfg input s0
  rcases endParsing_spec cfg nowEnd (runLines cfg input s0) with ⟨_, hl, ho, hp, _, _⟩
  unfold parse
  exact ⟨hl.trans hrl, ho.trans (congrArg strJoin hrl), hp⟩

/-- C8: the parser never invents steps.  Over a whole parse the build step
record list keeps its length; any position whose record changed is in the range
of the by-slug or the by-index registry built before parsing from the declared
steps; an update line whose index resolves to no declared step mutates nothing;
and a start line whose extracted slug is absent from the by-slug registry
mutates nothing. -/
theorem c8_parser_never_invents_steps (cfg : Config) (input : List (String × Rat))
    (nowEnd : Rat) (dc : DeployCandidate) (t0 : Rat) :
    ((parse cfg input nowEnd (initState dc t0)).1.build_steps.length =
      dc.build_steps.length) ∧
    (∀ p, (parse cfg input nowEnd (initState dc t0)).1.build_steps.get? p ≠
        dc.build_steps.get? p →
      (∃ sl, dictGet (buildSlugMap dc.build_steps) sl = some p) ∨
      (∃ k, dictGet (buildIndexMap dc.build_steps) k = some p)) ∧
    (∀ split s, dictGet s.dc_steps_by_index (some split.index) = none →
      updateDcBuildStep split s = (s, none)) ∧
    (∀ split s sl, extractedSlug cfg split.line = some sl →
      dictGet s.dc_steps_by_step_slug sl = none →
      (addStepToStepsDict cfg split s).1 = s) := by
  refine ⟨?_, ?_, ?_, ?_⟩
  · unfold parse
    exact (congrArg List.length (endParsing_spec cfg nowEnd _).1).trans
      (runLines_frames cfg input (initState dc t0)).2.2
  · intro p h
    unfold parse at h
    rw [congrArg (fun l => l.get? p) (endParsing_spec cfg nowEnd _).1] at h
    exact runLines_changed cfg input (initState dc t0) p h
  · intro split s hnone
    unfold updateDcBuildStep
    rw [hnone]
  · intro split s sl hsl hnone
    rcases addStepToStepsDict_shape cfg split s with he | ⟨q, sl2, f, hesl, hq, _, _⟩
    · exact he
    · rw [hsl] at hesl
      cases Option.some.inj hesl
      rw [hnone] at hq
      exact Option.noConfusion hq

/-- C8 witness: a parse that does mutate the single declared step, whose
position is then found in one of the two registries. -/
theorem c8_witness :
    (∃ sl, dictGet (buildSlugMap dcFresh.build_steps) sl = some 0) ∨
    (∃ k, dictGet (buildIndexMap dcFresh.build_steps) k = some 0) :=
  (c8_parser_never_invents_steps cfg0 [(startLine ("1"), 0)] 0 dcFresh 0).2.1 0
    (by decide)

/-- C9: the step-start transition writes only step_index, command, status and
output; the slug, hash, cached and duration fields of every step are unchanged
by _add_step_to_steps_dict, so a re-started step keeps its earlier hash, cached
and duration values until a later line overwrites them. -/
theorem c9_start_transition_frame (cfg : Config) (split : IndexSplit)
    (s : ParserState) (p : Nat) (st st' : BuildStep)
    (h1 : s.build_steps.get? p = some st)
    (h2 : (addStepToStepsDict cfg split s).1.build_steps.get? p = some st') :
    st'.step_slug = st.step_slug ∧ st'.hash = st.hash ∧ st'.cached = st.cached ∧
    st'.duration = st.duration :=
  addStepToStepsDict_fields cfg split s p st st' h1 h2

/-- C9 witness: the concrete start transition for the frappe step at index 1
keeps hash, cached and duration. -/
theorem c9_witness :
    (⟨"frappe", some (.int 1), "bench get-app frappe", .Running, "", false,
        none, none⟩ : BuildStep).step_slug = stepFrappe.step_slug ∧
    (⟨"frappe", some (.int 1), "bench get-app frappe", .Running, "", false,
        none, none⟩ : BuildStep).hash = stepFrappe.hash ∧
    (⟨"frappe", some (.int 1), "bench get-app frappe", .Running, "", false,
        none, none⟩ : BuildStep).cached = stepFrappe.cached ∧
    (⟨"frappe", some (.int 1), "bench get-app frappe", .Running, "", false,
        none, none⟩ : BuildStep).duration = stepFrappe.duration :=
  c9_start_transition_frame cfg0
    ⟨.int 1, "[stage-apps 1/1] RUN echo hi `#stage-apps-frappe`", false⟩
    (initState dcFresh 0) 0 stepFrappe
    ⟨"frappe", some (.int 1), "bench get-app frappe", .Running, "", false,
      none, none⟩
    (by decide) (by decide)

/-- C10: the classifier never checks for a leading hash sign: any line of two
whitespace-separated parts whose first token, with its first character removed,
parses as an integer n is classified as index n with is_unusual false. -/
theorem c10_classifier_laxity (s : ParserState) (line a b : String) (n : Int)
    (h1 : pySplitMax1 line = [a, b]) (h2 : pyInt (pyDrop a 1) = some n) :
    getStepIndexSplit line s = .ok ⟨.int n, b, false⟩ := by
  unfold getStepIndexSplit
  rw [h1]
  dsimp only
  rw [h2]

/-- C10 witness: the line 12 foo is attributed to index 2, not treated as
unusual. -/
theorem c10_witness :
    getStepIndexSplit ("12 foo") (initState dcFresh 0) =
      .ok ⟨.int 2, "foo", false⟩ :=
  c10_classifier_laxity (initState dcFresh 0) ("12 foo") ("12") ("foo") 2
    (by decide) (by decide)

/-- C4 amended: a line whose classified index is already registered in
active-by-index is handled by the update rules, which never assign a
non-terminal status, so no step regresses from Success or Failure to a
non-terminal status through such a line; regression remains possible only via a
start marker arriving under a fresh, unregistered index, as the counterexample
shows. -/
theorem c4_amended_no_regression_for_registered_index (cfg : Config)
    (raw : String) (now : Rat) (s : ParserState) (split : IndexSplit) (p : Nat)
    (st st' : BuildStep)
    (hcl : getStepIndexSplit (pyStrip (ansiEscape raw)) s = .ok split)
    (hreg : s.steps.any (fun kv => kv.1 = split.index) = true)
    (h1 : s.build_steps.get? p = some st)
    (h2 : (parseLineHandleExc cfg raw now s).build_steps.get? p = some st')
    (ht : st.status = .Success ∨ st.status = .Failure) :
    st'.status = .Success ∨ st'.status = .Failure := by
  rw [handle_bs] at h2
  unfold parseLine at h2
  dsimp only at h2
  split at h2
  · rw [h1] at h2
    cases Option.some.inj h2
    exact ht
  · split at h2
    · dsimp only at h2
      rw [h1] at h2
      cases Option.some.inj h2
      exact ht
    · rename_i heq
      rw [getStepIndexSplit_lines, hcl] at heq
      cases Except.ok.inj heq
      split at h2
      · rw [congrArg (fun l => l.get? p) (setDockerImageId_frames _ _).1] at h2
        dsimp only at h2
        rw [h1] at h2
        cases Option.some.inj h2
        exact ht
      · rcases updateDcBuildStep_status _ _ p st st' h2 h1 with hs | hs | hs
        · rw [hs]
          exact ht
        · exact Or.inl hs
        · exact Or.inr hs

unseal Rat.mul Rat.inv Rat.add Rat.sub in
/-- C4 amended witness: a CACHED line for the registered index 1 applied to a
step already settled at Success keeps a terminal status. -/
theorem c4_amended_witness :
    (⟨"frappe", some (.int 1), "bench get-app frappe", .Success, "", true,
        none, some 2⟩ : BuildStep).status = .Success ∨
    (⟨"frappe", some (.int 1), "bench get-app frappe", .Success, "", true,
        none, some 2⟩ : BuildStep).status = .Failure :=
  c4_amended_no_regression_for_registered_index cfg0 ("#1 CACHED") 0
    (runLines cfg0 [(startLine ("1"), 0), ("#1 DONE 2.0s", 0)] (initState (dcIdx 1) 0))
    ⟨.int 1, "CACHED", false⟩ 0
    ⟨"frappe", some (.int 1), "bench get-app frappe", .Success, "", false,
      none, some 2⟩
    ⟨"frappe", some (.int 1), "bench get-app frappe", .Success, "", true,
      none, some 2⟩
    (by decide) (by decide) (by decide) (by decide) (Or.inl rfl)

/-- C7 amended: for a step resolvable under index 5 in the by-index registry,
the line hash-5 ERROR: permission denied sets status Failure and appends the
text after the 7-character prefix, which is permission denied, plus a newline
to the output; the output therefore ends in permission denied plus newline
rather than in colon-space permission denied plus newline. -/
theorem c7_amended_error_transition (s : ParserState) (p : Nat) (st : BuildStep)
    (h1 : dictGet s.dc_steps_by_index (some (.int 5)) = some p)
    (h2 : s.build_steps.get? p = some st) :
    (updateDcBuildStep ⟨.int 5, "ERROR: permission denied", false⟩
        s).1.build_steps.get? p =
      some { st with status := .Failure,
                     output := st.output ++ "permission denied" ++ "\n" } ∧
    (updateDcBuildStep ⟨.int 5, "ERROR: permission denied", false⟩ s).2 =
      none := by
  unfold updateDcBuildStep
  dsimp only
  rw [h1]
  dsimp only
  have hd : pyDrop ("ERROR: permission denied") 7 = "permission denied" := by decide
  split
  · rename_i hb
    exact absurd hb (by decide)
  · split
    · rename_i hb
      exact absurd hb (by decide)
    · split
      · rename_i hb
        exact absurd hb (by decide)
      · split
        · rename_i hb
          exact absurd hb (by decide)
        · split
          · refine ⟨?_, rfl⟩
            have hset : ∀ f : BuildStep → BuildStep,
                (setStep s p f).build_steps = modifyAt s.build_steps p f :=
              fun _ => rfl
            rw [hset, get_modifyAt_self, h2, hd]
            rfl
          · rename_i hb
            exact absurd (by decide) hb

/-- C7 amended witness: the transition applied right after the start of step 5
on a candidate whose step carries persisted index 5. -/
theorem c7_amended_witness :
    (updateDcBuildStep ⟨.int 5, "ERROR: permission denied", false⟩
        (runLines cfg0 [(startLine ("5"), 0)]
          (initState (dcIdx 5) 0))).1.build_steps.get? 0 =
      some { (⟨"frappe", some (.int 5), "bench get-app frappe", .Running, "",
          false, none, none⟩ : BuildStep) with
        status := .Failure,
        output := (⟨"frappe", some (.int 5), "bench get-app frappe", .Running,
          "", false, none, none⟩ : BuildStep).output ++
          "permission denied" ++ "\n" } ∧
    (updateDcBuildStep ⟨.int 5, "ERROR: permission denied", false⟩
        (runLines cfg0 [(startLine ("5"), 0)] (initState (dcIdx 5) 0))).2 =
      none :=
  c7_amended_error_transition
    (runLines cfg0 [(startLine ("5"), 0)] (initState (dcIdx 5) 0)) 0
    ⟨"frappe", some (.int 5), "bench get-app frappe", .Running, "", false,
      none, none⟩
    (by decide) (by decide)

end DockerParse
